import Mathlib

/-!
Verification development for the cw20-escrow remittance contract
(src/src/contract.rs, src/src/state.rs, src/src/msg.rs, src/src/error.rs).

Shallow embedding conventions:
* Addresses are strings (`Addr`); host address validation (`api.addr_validate`)
  is treated as always succeeding, since the execution environment is external
  to the core (spec, section 1: out of scope).
* `Uint128` amounts are modelled as `Nat`; cosmwasm `Uint128` addition is
  checked (it aborts on overflow rather than wrapping), so `Nat` addition is
  the partial-correctness model and no modulus is needed.
* Storage (`cw_storage_plus::Map<&str, Escrow>`) is an association list keyed
  by the escrow id; `load` returns the first binding, `remove` deletes the
  binding, and `ESCROWS.update` is embedded by an explicit lookup followed by
  an insert, exactly mirroring its closure in `c_create`.
* Each entry point returns the storage after the call together with an
  `Except ContractError` result; the storage is returned on error paths too,
  so that statements about what a failed call wrote are meaningful.
* A `Response` is modelled by its list of submessages (the fund-transfer
  instructions); the textual attributes are metadata that no claim concerns.
* The serialization of a `Cw20ExecuteMsg::Transfer` into a `WasmMsg::Execute`
  is transport, modelled by the structured `SubMsg.cw20Transfer` constructor.
-/

/-- Addresses, rendered as plain strings (cosmwasm `Addr`). -/
abbrev Addr := String

/-- A native coin: denomination and amount (cosmwasm `Coin`). -/
structure Coin where
  denom : String
  amount : Nat
deriving DecidableEq, Repr

/-- A verified cw20 holding: token contract address and amount
(`cw20::Cw20CoinVerified`). -/
structure Cw20CoinVerified where
  address : Addr
  amount : Nat
deriving DecidableEq, Repr

/-- An attached deposit, either native coins or a single cw20 token
(`cw20::Balance`). -/
inductive Balance where
  | native (coins : List Coin)
  | cw20 (token : Cw20CoinVerified)
deriving DecidableEq, Repr

/-- Emptiness of a deposit (`cw20::Balance::is_empty`): a native deposit is
empty when every coin amount is zero, a cw20 deposit when its amount is zero. -/
def Balance.is_empty : Balance → Bool
  | .native coins => coins.all (fun c => c.amount = 0)
  | .cw20 token => token.amount = 0

/-- The two-sided balance ledger of an escrow (`state.rs` `GenericBalance`). -/
structure GenericBalance where
  native : List Coin
  cw20 : List Cw20CoinVerified
deriving DecidableEq, Repr

/-- Merge one native coin into a native entry list: add the amount to the
first entry with the same denomination, else append a new entry. This is the
body of the `for token in balance.0` loop of `GenericBalance::add_tokens`
(`state.rs` lines 19-31: find first index with equal denom, `+=` there,
otherwise push). -/
def addNativeOne : List Coin → Coin → List Coin
  | [], t => [t]
  | c :: cs, t =>
    if c.denom = t.denom then { denom := c.denom, amount := c.amount + t.amount } :: cs
    else c :: addNativeOne cs t

/-- Merge a list of native coins into a native entry list, left to right
(the `for` loop of `GenericBalance::add_tokens`). -/
def addNative (l : List Coin) (ts : List Coin) : List Coin :=
  ts.foldl addNativeOne l

/-- Merge one cw20 token into a cw20 entry list: add the amount to the first
entry with the same token address, else append (`state.rs` lines 33-45). -/
def addCw20One : List Cw20CoinVerified → Cw20CoinVerified → List Cw20CoinVerified
  | [], t => [t]
  | c :: cs, t =>
    if c.address = t.address then { address := c.address, amount := c.amount + t.amount } :: cs
    else c :: addCw20One cs t

/-- `GenericBalance::add_tokens` (`state.rs` lines 16-47). -/
def GenericBalance.add_tokens (gb : GenericBalance) (add : Balance) : GenericBalance :=
  match add with
  | .native ts => { native := addNative gb.native ts, cw20 := gb.cw20 }
  | .cw20 t => { native := gb.native, cw20 := addCw20One gb.cw20 t }

/-- Trust metric profile (`state.rs` `TrustMetrics`). -/
structure TrustMetrics where
  percent_completed : Nat
  percent_satisfied : Nat
  avg_volume : Nat
  avg_completion_speed : Nat
  total_volume : Nat
  total_completed : Nat
deriving DecidableEq, Repr

/-- The six comparisons written in `TrustMetrics::is_higher` (`state.rs` lines
96-119), with each comparison's written `false` result actually returned and
the final `true` returned otherwise. In the source every one of those results
is a discarded expression statement and the function returns unit (see
`TrustMetrics.is_higher_as_written`); the caller `f_accept` uses the result as
a boolean, and this disjunction is the only reading under which that call is
meaningful: the required profile is "higher" (candidate denied) when the
candidate is strictly worse on some field, where worse means smaller for the
five score fields and larger for `avg_completion_speed`. -/
def TrustMetrics.is_higher (self other : TrustMetrics) : Bool :=
  decide (other.percent_completed < self.percent_completed) ||
  decide (other.percent_satisfied < self.percent_satisfied) ||
  decide (other.avg_volume < self.avg_volume) ||
  decide (self.avg_completion_speed < other.avg_completion_speed) ||
  decide (other.total_volume < self.total_volume) ||
  decide (other.total_completed < self.total_completed)

/-- Literal control flow of `TrustMetrics::is_higher` as it stands in
`state.rs` lines 96-119: each comparison is evaluated and its boolean result
is a discarded statement (`false;` / `true;`), and the function body ends
without returning any of them, yielding unit. -/
def TrustMetrics.is_higher_as_written (self other : TrustMetrics) : Unit :=
  let _ := decide (self.percent_completed > other.percent_completed)
  let _ := decide (self.percent_satisfied > other.percent_satisfied)
  let _ := decide (self.avg_volume > other.avg_volume)
  let _ := decide (self.avg_completion_speed < other.avg_completion_speed)
  let _ := decide (self.total_volume > other.total_volume)
  let _ := decide (self.total_completed > other.total_completed)
  ()

/-- The escrow record (`state.rs` `Escrow`). -/
structure Escrow where
  arbiter : Addr
  fulfiller : Addr
  creator : Addr
  end_height : Option Nat
  end_time : Option Nat
  balance : GenericBalance
  exchange_rate : Nat
  cw20_whitelist : List Addr
  required_trust_metrics : TrustMetrics
  is_listed : Bool
  is_canceled : Bool
  is_accepted : Bool
  is_fulfilled : Bool
  is_in_arbitration : Bool
  is_completed : Bool
  time_created : Option Nat
  time_accepted : Option Nat
  time_fulfilled : Option Nat
  time_arbitration_started : Option Nat
deriving DecidableEq, Repr

/-- Block context supplied by the host (`cosmwasm_std::Env`, projected to the
block height and time the contract could consult). -/
structure Env where
  height : Nat
  time : Nat
deriving DecidableEq, Repr

/-- Caller identity and attached native funds (`cosmwasm_std::MessageInfo`). -/
structure MessageInfo where
  sender : Addr
  funds : List Coin
deriving DecidableEq, Repr

/-- `Escrow::is_accept_expired` (`state.rs` lines 140-143): the body is the
single statement `return true;`, so the check succeeds unconditionally (the
declared unit return type is one of the source's type slips; its caller
`c_cancel` uses the value as a boolean). -/
def Escrow.is_accept_expired (_e : Escrow) (_env : Env) : Bool :=
  true

/-- Storage-level error class propagated from the store (`cosmwasm_std`
`StdError`); only the not-found fault is reachable in this embedding. -/
inductive StdError where
  | notFound
deriving DecidableEq, Repr

/-- `ContractError` (`error.rs`). -/
inductive ContractError where
  | Std (e : StdError)
  | Unauthorized
  | NotListed
  | TrustMetricsInsufficient
  | AlreadyAccepted
  | CantUnaccept
  | CantFulfill
  | NotFulfilled
  | NotComplete
  | NotInWhitelist
  | Expired
  | EmptyBalance
  | AlreadyInUse
deriving DecidableEq, Repr

/-- The escrow store: bindings from id to record (`ESCROWS : Map<&str, Escrow>`). -/
abbrev Store := List (String × Escrow)

/-- `ESCROWS.load`, as an option: the first binding for the id, if any. -/
def load : Store → String → Option Escrow
  | [], _ => none
  | (k, e) :: s, id => if k = id then some e else load s id

/-- Insert a binding (the write performed by `ESCROWS.update` on the `None`
branch of `c_create`). -/
def insert (s : Store) (id : String) (e : Escrow) : Store :=
  (id, e) :: s

/-- `ESCROWS.remove`: delete every binding for the id. -/
def removeKey : Store → String → Store
  | [], _ => []
  | (k, e) :: s, id => if k = id then removeKey s id else (k, e) :: removeKey s id

/-- A fund-transfer instruction (`SubMsg`): either one native bank send or one
cw20 transfer executed on a token contract. -/
inductive SubMsg where
  | bankSend (to_address : Addr) (amount : List Coin)
  | cw20Transfer (contract_addr : Addr) (recipient : Addr) (amount : Nat)
deriving DecidableEq, Repr

/-- Outcome of an execute entry point: the storage after the call, and either
the response's fund-transfer instructions or a contract error. -/
abbrev ExecOut := Store × Except ContractError (List SubMsg)

/-- `send_tokens` (`contract.rs` lines 332-361): one bank send carrying the
whole native entry list unless that list is empty, followed by one cw20
transfer instruction per cw20 entry, in order. -/
def send_tokens (dest : Addr) (balance : GenericBalance) : List SubMsg :=
  (if balance.native.isEmpty then []
   else [SubMsg.bankSend dest balance.native]) ++
  balance.cw20.map (fun c => SubMsg.cw20Transfer c.address dest c.amount)

/-- `get_trust_metrics` (`contract.rs` lines 321-330): the hardcoded stand-in
profile returned for every caller. -/
def get_trust_metrics (_sender : Addr) : TrustMetrics :=
  { percent_completed := 95
    percent_satisfied := 90
    avg_volume := 100
    avg_completion_speed := 600000
    total_volume := 2000
    total_completed := 20 }

/-- `CreateMsg` (`msg.rs` lines 36-58). -/
structure CreateMsg where
  id : String
  arbiter : String
  end_height : Option Nat
  end_time : Option Nat
  exchange_rate : Nat
  cw20_whitelist : Option (List String)
  required_trust_metrics : TrustMetrics
deriving DecidableEq, Repr

/-- `CreateMsg::addr_whitelist` (`msg.rs` lines 71-78), with host address
validation treated as always succeeding. -/
def CreateMsg.addr_whitelist (msg : CreateMsg) : List Addr :=
  match msg.cw20_whitelist with
  | some v => v
  | none => []

/-- `FeedbackMsg` (`msg.rs` lines 65-69). -/
structure FeedbackMsg where
  comment : String
  satisfied : Bool
deriving DecidableEq, Repr

/-- `ArbitrateMsg` (`msg.rs` lines 60-63). -/
structure ArbitrateMsg where
  reciever : Addr
deriving DecidableEq, Repr

/-- `ExecuteMsg` (`msg.rs` lines 16-28). -/
inductive ExecuteMsg where
  | ElArbitrate (id : String) (msg : ArbitrateMsg)
  | CCreate (msg : CreateMsg)
  | FAccept (id : String)
  | CCancel (id : String)
  | FUnaccept (id : String)
  | CChange (msg : CreateMsg)
  | FComplete (id : String)
  | CReqArbitration (id : String)
  | CComplete (id : String)
  | CFeedback (id : String) (msg : FeedbackMsg)
  | FFeedback (id : String) (msg : FeedbackMsg)
deriving DecidableEq, Repr

/-- `el_arbitrate` (`contract.rs` lines 55-64): always denied. -/
def el_arbitrate (s : Store) (_env : Env) (_info : MessageInfo) (_msg : ArbitrateMsg)
    (_id : String) : ExecOut :=
  (s, .error .Unauthorized)

/-- `c_create` (`contract.rs` lines 66-128): reject an empty deposit, build
the record (fulfiller and creator both set to the sender, `is_listed` true and
every other flag false, timers at zero), auto-whitelist a cw20 funding token,
and insert it only if the id is unused. -/
def c_create (s : Store) (msg : CreateMsg) (balance : Balance) (sender : Addr) : ExecOut :=
  if balance.is_empty then (s, .error .EmptyBalance)
  else
    let wl := msg.addr_whitelist
    let cw20_whitelist :=
      match balance with
      | .native _ => wl
      | .cw20 token => if wl.contains token.address then wl else wl ++ [token.address]
    let escrow_balance : GenericBalance :=
      match balance with
      | .native coins => { native := coins, cw20 := [] }
      | .cw20 token => { native := [], cw20 := [token] }
    let escrow : Escrow :=
      { arbiter := msg.arbiter
        fulfiller := sender
        creator := sender
        end_height := msg.end_height
        end_time := msg.end_time
        balance := escrow_balance
        exchange_rate := msg.exchange_rate
        cw20_whitelist := cw20_whitelist
        required_trust_metrics := msg.required_trust_metrics
        is_listed := true
        is_canceled := false
        is_accepted := false
        is_fulfilled := false
        is_in_arbitration := false
        is_completed := false
        time_created := some 0
        time_accepted := some 0
        time_fulfilled := some 0
        time_arbitration_started := some 0 }
    match load s msg.id with
    | some _ => (s, .error .AlreadyInUse)
    | none => (insert s msg.id escrow, .ok [])

/-- `f_accept` (`contract.rs` lines 130-156): the creator may not accept, the
record must be listed, and the caller's trust profile must not be below the
required one; on success the fulfiller is set only on the in-memory copy,
which is never saved, so the storage is returned unchanged. -/
def f_accept (s : Store) (_env : Env) (info : MessageInfo) (id : String) : ExecOut :=
  match load s id with
  | none => (s, .error (.Std .notFound))
  | some escrow =>
    if info.sender = escrow.creator then (s, .error .Unauthorized)
    else if escrow.is_listed = false then (s, .error .NotListed)
    else if escrow.required_trust_metrics.is_higher (get_trust_metrics info.sender) then
      (s, .error .TrustMetricsInsufficient)
    else (s, .ok [])

/-- `c_cancel` (`contract.rs` lines 158-179): unauthorized when the accept
window has not elapsed and the caller is not the creator (vacuous, since
`is_accept_expired` returns true), rejected unless the record is accepted,
else the record is removed. -/
def c_cancel (s : Store) (env : Env) (info : MessageInfo) (id : String) : ExecOut :=
  match load s id with
  | none => (s, .error (.Std .notFound))
  | some escrow =>
    if escrow.is_accept_expired env = false ∧ info.sender ≠ escrow.creator then
      (s, .error .Unauthorized)
    else if escrow.is_accepted = false then (s, .error .CantUnaccept)
    else (removeKey s id, .ok [])

/-- `f_unaccept` (`contract.rs` lines 181-200): only the fulfiller of an
accepted record may unaccept; the body then assigns the caller (who is the
fulfiller) back to the fulfiller field of the in-memory copy and never saves,
so the storage is returned unchanged. -/
def f_unaccept (s : Store) (_env : Env) (info : MessageInfo) (id : String) : ExecOut :=
  match load s id with
  | none => (s, .error (.Std .notFound))
  | some escrow =>
    if info.sender ≠ escrow.fulfiller then (s, .error .Unauthorized)
    else if escrow.is_accepted = false then (s, .error .CantUnaccept)
    else (s, .ok [])

/-- `c_change` (`contract.rs` lines 202-210): always denied. -/
def c_change (s : Store) (_env : Env) (_info : MessageInfo) (_msg : CreateMsg) : ExecOut :=
  (s, .error .Unauthorized)

/-- `f_complete` (`contract.rs` lines 212-230): only the fulfiller of an
accepted record; the fulfillment flag change is commented out, nothing is
written. -/
def f_complete (s : Store) (_env : Env) (info : MessageInfo) (id : String) : ExecOut :=
  match load s id with
  | none => (s, .error (.Std .notFound))
  | some escrow =>
    if info.sender ≠ escrow.fulfiller then (s, .error .Unauthorized)
    else if escrow.is_accepted = false then (s, .error .CantFulfill)
    else (s, .ok [])

/-- `c_request_arbitration` (`contract.rs` lines 232-250): only the creator of
a fulfilled record; the arbitration flag change is commented out, nothing is
written. -/
def c_request_arbitration (s : Store) (_env : Env) (info : MessageInfo) (id : String) : ExecOut :=
  match load s id with
  | none => (s, .error (.Std .notFound))
  | some escrow =>
    if info.sender ≠ escrow.creator then (s, .error .Unauthorized)
    else if escrow.is_fulfilled = false then (s, .error .NotFulfilled)
    else (s, .ok [])

/-- `c_complete` (`contract.rs` lines 252-277): only the creator; `Expired`
when the record is not fulfilled or already completed (the source's
`!escrow.is_fulfilled | escrow.is_completed`); otherwise the record is removed
and the whole balance is rendered into transfers to the fulfiller. -/
def c_complete (s : Store) (_env : Env) (info : MessageInfo) (id : String) : ExecOut :=
  match load s id with
  | none => (s, .error (.Std .notFound))
  | some escrow =>
    if info.sender ≠ escrow.creator then (s, .error .Unauthorized)
    else if escrow.is_fulfilled = false ∨ escrow.is_completed = true then
      (s, .error .Expired)
    else (removeKey s id, .ok (send_tokens escrow.fulfiller escrow.balance))

/-- `c_feedback` (`contract.rs` lines 279-298): only the creator of a
completed record; no persisted effect. -/
def c_feedback (s : Store) (_env : Env) (info : MessageInfo) (_msg : FeedbackMsg)
    (id : String) : ExecOut :=
  match load s id with
  | none => (s, .error (.Std .notFound))
  | some escrow =>
    if info.sender ≠ escrow.creator then (s, .error .Unauthorized)
    else if escrow.is_completed = false then (s, .error .NotComplete)
    else (s, .ok [])

/-- `f_feedback` (`contract.rs` lines 300-319): only the fulfiller of a
completed record; no persisted effect. -/
def f_feedback (s : Store) (_env : Env) (info : MessageInfo) (_msg : FeedbackMsg)
    (id : String) : ExecOut :=
  match load s id with
  | none => (s, .error (.Std .notFound))
  | some escrow =>
    if info.sender ≠ escrow.fulfiller then (s, .error .Unauthorized)
    else if escrow.is_completed = false then (s, .error .NotComplete)
    else (s, .ok [])

/-- The `execute` dispatcher (`contract.rs` lines 33-53); the attached funds
enter `c_create` as a native balance (`Balance::from(info.funds)`). -/
def execute (s : Store) (env : Env) (info : MessageInfo) (msg : ExecuteMsg) : ExecOut :=
  match msg with
  | .ElArbitrate id m => el_arbitrate s env info m id
  | .CCreate m => c_create s m (.native info.funds) info.sender
  | .FAccept id => f_accept s env info id
  | .CCancel id => c_cancel s env info id
  | .FUnaccept id => f_unaccept s env info id
  | .CChange m => c_change s env info m
  | .FComplete id => f_complete s env info id
  | .CReqArbitration id => c_request_arbitration s env info id
  | .CComplete id => c_complete s env info id
  | .CFeedback id m => c_feedback s env info m id
  | .FFeedback id m => f_feedback s env info m id

/-- Per-denomination total of a native entry list. -/
def natTotal (l : List Coin) (d : String) : Nat :=
  (l.map (fun c => if c.denom = d then c.amount else 0)).sum

/-- Per-token-address total of a cw20 entry list. -/
def cw20Total (l : List Cw20CoinVerified) (a : Addr) : Nat :=
  (l.map (fun c => if c.address = a then c.amount else 0)).sum

/-- The denominations of a native entry list, in entry order. -/
def natDenoms (l : List Coin) : List String :=
  l.map (fun c => c.denom)

/-- The token addresses of a cw20 entry list, in entry order. -/
def cw20Addrs (l : List Cw20CoinVerified) : List Addr :=
  l.map (fun c => c.address)

/-- The keys a deposit introduces beyond those already seen, in order of first
appearance in the deposit (used to state the first-seen key order of the
ledger merge). -/
def newKeys (seen : List String) : List Coin → List String
  | [] => []
  | t :: ts =>
    if t.denom ∈ seen then newKeys seen ts
    else t.denom :: newKeys (t.denom :: seen) ts

/-- The destination address of a fund-transfer instruction. -/
def msgDest : SubMsg → Addr
  | .bankSend a _ => a
  | .cw20Transfer _ r _ => r

/-- Per-denomination native total carried by a list of instructions. -/
def msgsNativeTotal (ms : List SubMsg) (d : String) : Nat :=
  (ms.map (fun m => match m with
    | .bankSend _ amt => natTotal amt d
    | .cw20Transfer _ _ _ => 0)).sum

/-- Per-token-address cw20 total carried by a list of instructions. -/
def msgsCw20Total (ms : List SubMsg) (a : Addr) : Nat :=
  (ms.map (fun m => match m with
    | .bankSend _ _ => 0
    | .cw20Transfer addr _ amt => if addr = a then amt else 0)).sum

/-- Whether an instruction is a native bank send. -/
def isBankSend : SubMsg → Bool
  | .bankSend _ _ => true
  | .cw20Transfer _ _ _ => false

/-- The flag profile every record carries when it is written by `c_create`:
listed, and no other lifecycle flag set. -/
def flagsClean (e : Escrow) : Prop :=
  e.is_listed = true ∧ e.is_canceled = false ∧ e.is_accepted = false ∧
  e.is_fulfilled = false ∧ e.is_in_arbitration = false ∧ e.is_completed = false

/-- Storage states reachable from the empty store by any sequence of execute
calls (the storage component of each call's outcome, whether it succeeded or
failed). -/
inductive Reachable : Store → Prop where
  | empty : Reachable []
  | step (s : Store) (env : Env) (info : MessageInfo) (msg : ExecuteMsg) :
      Reachable s → Reachable (execute s env info msg).1

/-- A required-trust profile that the hardcoded candidate profile of
`get_trust_metrics` satisfies (its latency bound is above 600000). -/
def tmEasy : TrustMetrics :=
  { percent_completed := 0
    percent_satisfied := 0
    avg_volume := 0
    avg_completion_speed := 1000000
    total_volume := 0
    total_completed := 0 }

/-- A demanding required-trust profile used as a concrete admission threshold. -/
def tmDemanding : TrustMetrics :=
  { percent_completed := 100
    percent_satisfied := 100
    avg_volume := 1000
    avg_completion_speed := 1000
    total_volume := 100000
    total_completed := 100 }

/-- A candidate profile that fails every one of the six written comparisons
against `tmDemanding`. -/
def tmWorst : TrustMetrics :=
  { percent_completed := 0
    percent_satisfied := 0
    avg_volume := 0
    avg_completion_speed := 2000000
    total_volume := 0
    total_completed := 0 }

/-- A candidate profile that passes every one of the six written comparisons
against `tmDemanding`. -/
def tmBest : TrustMetrics :=
  { percent_completed := 100
    percent_satisfied := 100
    avg_volume := 10000
    avg_completion_speed := 0
    total_volume := 1000000
    total_completed := 1000 }

/-- A concrete create request: id `"foobar"`, arbiter `"arb"`, trust threshold
`tmEasy`. -/
def cmsg0 : CreateMsg :=
  { id := "foobar"
    arbiter := "arb"
    end_height := some 123456
    end_time := none
    exchange_rate := 7
    cw20_whitelist := none
    required_trust_metrics := tmEasy }

/-- A concrete block context. -/
def env0 : Env :=
  { height := 100, time := 1000 }

/-- A concrete create call: sender `"alice"` attaching 100 `"utoken"`. -/
def infoAlice : MessageInfo :=
  { sender := "alice", funds := [{ denom := "utoken", amount := 100 }] }

/-- The storage after `"alice"` executes the create request `cmsg0` on the
empty store. -/
def store1 : Store :=
  (execute [] env0 infoAlice (.CCreate cmsg0)).1

/-- The record that create writes for `cmsg0` from `infoAlice`. -/
def escrow1 : Escrow :=
  { arbiter := "arb"
    fulfiller := "alice"
    creator := "alice"
    end_height := some 123456
    end_time := none
    balance := { native := [{ denom := "utoken", amount := 100 }], cw20 := [] }
    exchange_rate := 7
    cw20_whitelist := []
    required_trust_metrics := tmEasy
    is_listed := true
    is_canceled := false
    is_accepted := false
    is_fulfilled := false
    is_in_arbitration := false
    is_completed := false
    time_created := some 0
    time_accepted := some 0
    time_fulfilled := some 0
    time_arbitration_started := some 0 }

/-- A copy of `escrow1` whose fulfillment flag is set and fulfiller is
`"bob"`, used as a concrete eligible record for creator-complete. -/
def escrowFulfilled : Escrow :=
  { escrow1 with fulfiller := "bob", is_fulfilled := true }

/-- A concrete feedback message. -/
def fb0 : FeedbackMsg :=
  { comment := "ok", satisfied := true }

/-- A copy of `escrow1` with `is_accepted` set and fulfiller `"bob"`, a
concrete record on which unaccept passes its guards. -/
def escrowAccepted : Escrow :=
  { escrow1 with fulfiller := "bob", is_accepted := true }

lemma load_insert (s : Store) (id id' : String) (e : Escrow) :
    load (insert s id e) id' = if id = id' then some e else load s id' :=
  rfl

lemma load_removeKey (s : Store) (id id' : String) :
    load (removeKey s id) id' = if id = id' then none else load s id' := by
  induction s with
  | nil => simp [removeKey, load]
  | cons kv s ih =>
    obtain ⟨k, e⟩ := kv
    by_cases hk : k = id
    · subst hk
      by_cases h : k = id'
      · subst h; simp [removeKey, load, ih]
      · simp [removeKey, load, ih, h]
    · by_cases h : k = id'
      · subst h
        by_cases h2 : id = k
        · exact absurd h2.symm hk
        · simp [removeKey, load, hk, h2]
      · by_cases h2 : id = id'
        · subst h2; simp [removeKey, load, ih, hk, h]
        · simp [removeKey, load, ih, hk, h, h2]

lemma natTotal_nil (d : String) : natTotal [] d = 0 := rfl

lemma natTotal_cons (c : Coin) (cs : List Coin) (d : String) :
    natTotal (c :: cs) d = (if c.denom = d then c.amount else 0) + natTotal cs d :=
  rfl

lemma cw20Total_nil (a : Addr) : cw20Total [] a = 0 := rfl

lemma cw20Total_cons (c : Cw20CoinVerified) (cs : List Cw20CoinVerified) (a : Addr) :
    cw20Total (c :: cs) a = (if c.address = a then c.amount else 0) + cw20Total cs a :=
  rfl

lemma natTotal_addNativeOne (l : List Coin) (t : Coin) (d : String) :
    natTotal (addNativeOne l t) d = natTotal l d + (if t.denom = d then t.amount else 0) := by
  induction l with
  | nil =>
    simp only [addNativeOne, natTotal_cons, natTotal_nil]
    omega
  | cons c cs ih =>
    by_cases h : c.denom = t.denom
    · simp only [addNativeOne, if_pos h, natTotal_cons]
      rw [h]
      split_ifs <;> omega
    · simp only [addNativeOne, if_neg h, natTotal_cons, ih]
      omega

lemma natTotal_addNative (ts : List Coin) : ∀ (l : List Coin) (d : String),
    natTotal (addNative l ts) d = natTotal l d + natTotal ts d := by
  induction ts with
  | nil =>
    intro l d
    simp [addNative, natTotal_nil]
  | cons t ts ih =>
    intro l d
    have hstep : addNative l (t :: ts) = addNative (addNativeOne l t) ts := rfl
    rw [hstep, ih, natTotal_addNativeOne, natTotal_cons]
    omega

lemma cw20Total_addCw20One (l : List Cw20CoinVerified) (t : Cw20CoinVerified) (a : Addr) :
    cw20Total (addCw20One l t) a = cw20Total l a + (if t.address = a then t.amount else 0) := by
  induction l with
  | nil =>
    simp only [addCw20One, cw20Total_cons, cw20Total_nil]
    omega
  | cons c cs ih =>
    by_cases h : c.address = t.address
    · simp only [addCw20One, if_pos h, cw20Total_cons]
      rw [h]
      split_ifs <;> omega
    · simp only [addCw20One, if_neg h, cw20Total_cons, ih]
      omega

lemma natDenoms_addNativeOne (l : List Coin) (t : Coin) :
    natDenoms (addNativeOne l t) =
      if t.denom ∈ natDenoms l then natDenoms l else natDenoms l ++ [t.denom] := by
  induction l with
  | nil => simp [addNativeOne, natDenoms]
  | cons c cs ih =>
    by_cases h : c.denom = t.denom
    · simp only [addNativeOne, if_pos h]
      have hmem : t.denom ∈ natDenoms (c :: cs) := by
        simp only [natDenoms, List.map_cons, List.mem_cons]
        exact Or.inl h.symm
      rw [if_pos hmem]
      rfl
    · have h2 : ¬t.denom = c.denom := fun hx => h hx.symm
      simp only [addNativeOne, if_neg h]
      have hiff : t.denom ∈ natDenoms (c :: cs) ↔ t.denom ∈ natDenoms cs := by
        simp only [natDenoms, List.map_cons, List.mem_cons]
        constructor
        · rintro (hx | hx)
          · exact absurd hx h2
          · exact hx
        · exact Or.inr
      by_cases hm : t.denom ∈ natDenoms cs
      · rw [if_pos (hiff.mpr hm)]
        show c.denom :: natDenoms (addNativeOne cs t) = natDenoms (c :: cs)
        rw [ih, if_pos hm]
        rfl
      · rw [if_neg (fun hx => hm (hiff.mp hx))]
        show c.denom :: natDenoms (addNativeOne cs t) = natDenoms (c :: cs) ++ [t.denom]
        rw [ih, if_neg hm]
        rfl

lemma cw20Addrs_addCw20One (l : List Cw20CoinVerified) (t : Cw20CoinVerified) :
    cw20Addrs (addCw20One l t) =
      if t.address ∈ cw20Addrs l then cw20Addrs l else cw20Addrs l ++ [t.address] := by
  induction l with
  | nil => simp [addCw20One, cw20Addrs]
  | cons c cs ih =>
    by_cases h : c.address = t.address
    · simp only [addCw20One, if_pos h]
      have hmem : t.address ∈ cw20Addrs (c :: cs) := by
        simp only [cw20Addrs, List.map_cons, List.mem_cons]
        exact Or.inl h.symm
      rw [if_pos hmem]
      rfl
    · have h2 : ¬t.address = c.address := fun hx => h hx.symm
      simp only [addCw20One, if_neg h]
      have hiff : t.address ∈ cw20Addrs (c :: cs) ↔ t.address ∈ cw20Addrs cs := by
        simp only [cw20Addrs, List.map_cons, List.mem_cons]
        constructor
        · rintro (hx | hx)
          · exact absurd hx h2
          · exact hx
        · exact Or.inr
      by_cases hm : t.address ∈ cw20Addrs cs
      · rw [if_pos (hiff.mpr hm)]
        show c.address :: cw20Addrs (addCw20One cs t) = cw20Addrs (c :: cs)
        rw [ih, if_pos hm]
        rfl
      · rw [if_neg (fun hx => hm (hiff.mp hx))]
        show c.address :: cw20Addrs (addCw20One cs t) = cw20Addrs (c :: cs) ++ [t.address]
        rw [ih, if_neg hm]
        rfl

lemma newKeys_congr (ts : List Coin) : ∀ seen seen' : List String,
    (∀ x, x ∈ seen ↔ x ∈ seen') → newKeys seen ts = newKeys seen' ts := by
  induction ts with
  | nil => intro _ _ _; rfl
  | cons t ts ih =>
    intro seen seen' h
    by_cases hm : t.denom ∈ seen
    · rw [newKeys, newKeys, if_pos hm, if_pos ((h _).mp hm)]
      exact ih _ _ h
    · rw [newKeys, newKeys, if_neg hm, if_neg (fun hx => hm ((h _).mpr hx))]
      exact congrArg (List.cons t.denom) (ih _ _ (fun x => by simp [h x]))

lemma natDenoms_addNative (ts : List Coin) : ∀ l : List Coin,
    natDenoms (addNative l ts) = natDenoms l ++ newKeys (natDenoms l) ts := by
  induction ts with
  | nil => intro l; simp [addNative, newKeys]
  | cons t ts ih =>
    intro l
    have hstep : addNative l (t :: ts) = addNative (addNativeOne l t) ts := rfl
    rw [hstep, ih, natDenoms_addNativeOne]
    by_cases hm : t.denom ∈ natDenoms l
    · rw [if_pos hm, newKeys, if_pos hm]
    · rw [if_neg hm, newKeys, if_neg hm,
        newKeys_congr ts (natDenoms l ++ [t.denom]) (t.denom :: natDenoms l)
          (fun x => by simp [or_comm])]
      simp

lemma nodup_natDenoms_addNativeOne (l : List Coin) (t : Coin)
    (h : (natDenoms l).Nodup) : (natDenoms (addNativeOne l t)).Nodup := by
  rw [natDenoms_addNativeOne]
  by_cases hm : t.denom ∈ natDenoms l
  · simpa [hm]
  · simp [hm, List.nodup_append, h]

lemma nodup_natDenoms_addNative (ts : List Coin) : ∀ l : List Coin,
    (natDenoms l).Nodup → (natDenoms (addNative l ts)).Nodup := by
  induction ts with
  | nil => intro l h; simpa [addNative]
  | cons t ts ih =>
    intro l h
    have hstep : addNative l (t :: ts) = addNative (addNativeOne l t) ts := rfl
    rw [hstep]
    exact ih _ (nodup_natDenoms_addNativeOne l t h)

lemma nodup_cw20Addrs_addCw20One (l : List Cw20CoinVerified) (t : Cw20CoinVerified)
    (h : (cw20Addrs l).Nodup) : (cw20Addrs (addCw20One l t)).Nodup := by
  rw [cw20Addrs_addCw20One]
  by_cases hm : t.address ∈ cw20Addrs l
  · simpa [hm]
  · simp [hm, List.nodup_append, h]

lemma msgsNativeTotal_append (ms ns : List SubMsg) (d : String) :
    msgsNativeTotal (ms ++ ns) d = msgsNativeTotal ms d + msgsNativeTotal ns d := by
  simp [msgsNativeTotal]

lemma msgsCw20Total_append (ms ns : List SubMsg) (a : Addr) :
    msgsCw20Total (ms ++ ns) a = msgsCw20Total ms a + msgsCw20Total ns a := by
  simp [msgsCw20Total]

lemma msgsNativeTotal_cons (m : SubMsg) (ms : List SubMsg) (d : String) :
    msgsNativeTotal (m :: ms) d =
      (match m with
        | .bankSend _ amt => natTotal amt d
        | .cw20Transfer _ _ _ => 0) + msgsNativeTotal ms d :=
  rfl

lemma msgsCw20Total_cons (m : SubMsg) (ms : List SubMsg) (a : Addr) :
    msgsCw20Total (m :: ms) a =
      (match m with
        | .bankSend _ _ => 0
        | .cw20Transfer addr _ amt => if addr = a then amt else 0) + msgsCw20Total ms a :=
  rfl

lemma msgsNativeTotal_cw20map (dest : Addr) (l : List Cw20CoinVerified) (d : String) :
    msgsNativeTotal (l.map (fun c => SubMsg.cw20Transfer c.address dest c.amount)) d = 0 := by
  induction l with
  | nil => rfl
  | cons c cs ih => rw [List.map_cons, msgsNativeTotal_cons, ih]

lemma msgsCw20Total_cw20map (dest : Addr) (l : List Cw20CoinVerified) (a : Addr) :
    msgsCw20Total (l.map (fun c => SubMsg.cw20Transfer c.address dest c.amount)) a =
      cw20Total l a := by
  induction l with
  | nil => rfl
  | cons c cs ih => rw [List.map_cons, msgsCw20Total_cons, ih, cw20Total_cons]

lemma msgsNativeTotal_send_tokens (dest : Addr) (b : GenericBalance) (d : String) :
    msgsNativeTotal (send_tokens dest b) d = natTotal b.native d := by
  by_cases h : b.native.isEmpty
  · have hnil : b.native = [] := by simpa [List.isEmpty_iff] using h
    simp [send_tokens, h, msgsNativeTotal_cw20map, hnil, natTotal_nil]
  · rw [send_tokens, if_neg h, msgsNativeTotal_append, msgsNativeTotal_cw20map]
    simp [msgsNativeTotal]

lemma msgsCw20Total_send_tokens (dest : Addr) (b : GenericBalance) (a : Addr) :
    msgsCw20Total (send_tokens dest b) a = cw20Total b.cw20 a := by
  by_cases h : b.native.isEmpty
  · simp [send_tokens, h, msgsCw20Total_cw20map]
  · rw [send_tokens, if_neg h, msgsCw20Total_append, msgsCw20Total_cw20map]
    simp [msgsCw20Total]

lemma msgDest_send_tokens (dest : Addr) (b : GenericBalance) (m : SubMsg)
    (h : m ∈ send_tokens dest b) : msgDest m = dest := by
  rcases List.mem_append.mp h with hm | hm
  · by_cases hn : b.native.isEmpty
    · simp [send_tokens, hn] at hm
    · simp [send_tokens, hn] at hm
      subst hm
      rfl
  · rcases List.mem_map.mp hm with ⟨c, _, rfl⟩
    rfl

lemma c_create_success (s : Store) (msg : CreateMsg) (b : Balance) (sender : Addr)
    (hne : b.is_empty = false) (hfree : load s msg.id = none) :
    ∃ e : Escrow, flagsClean e ∧ e.fulfiller = sender ∧ e.creator = sender ∧
      c_create s msg b sender = (insert s msg.id e, .ok []) := by
  unfold c_create
  rw [if_neg (by simp [hne])]
  simp only [hfree]
  exact ⟨_, ⟨rfl, rfl, rfl, rfl, rfl, rfl⟩, rfl, rfl, rfl⟩

lemma c_create_cases (s : Store) (msg : CreateMsg) (b : Balance) (sender : Addr) :
    (c_create s msg b sender).1 = s ∨
      ∃ e : Escrow, flagsClean e ∧ c_create s msg b sender = (insert s msg.id e, .ok []) := by
  by_cases hne : b.is_empty
  · left
    unfold c_create
    rw [if_pos hne]
  · cases hfree : load s msg.id with
    | none =>
      obtain ⟨e, hclean, _, _, hc⟩ :=
        c_create_success s msg b sender (by simpa using hne) hfree
      exact Or.inr ⟨e, hclean, hc⟩
    | some e0 =>
      left
      unfold c_create
      rw [if_neg hne]
      simp only [hfree]

lemma store_el_arbitrate (s : Store) (env : Env) (info : MessageInfo) (m : ArbitrateMsg)
    (id : String) : (el_arbitrate s env info m id).1 = s :=
  rfl

lemma store_c_change (s : Store) (env : Env) (info : MessageInfo) (m : CreateMsg) :
    (c_change s env info m).1 = s :=
  rfl

lemma store_f_accept (s : Store) (env : Env) (info : MessageInfo) (id : String) :
    (f_accept s env info id).1 = s := by
  cases hl : load s id with
  | none => simp [f_accept, hl]
  | some e =>
    simp only [f_accept, hl]
    split_ifs <;> rfl

lemma store_f_unaccept (s : Store) (env : Env) (info : MessageInfo) (id : String) :
    (f_unaccept s env info id).1 = s := by
  cases hl : load s id with
  | none => simp [f_unaccept, hl]
  | some e =>
    simp only [f_unaccept, hl]
    split_ifs <;> rfl

lemma store_f_complete (s : Store) (env : Env) (info : MessageInfo) (id : String) :
    (f_complete s env info id).1 = s := by
  cases hl : load s id with
  | none => simp [f_complete, hl]
  | some e =>
    simp only [f_complete, hl]
    split_ifs <;> rfl

lemma store_c_request_arbitration (s : Store) (env : Env) (info : MessageInfo) (id : String) :
    (c_request_arbitration s env info id).1 = s := by
  cases hl : load s id with
  | none => simp [c_request_arbitration, hl]
  | some e =>
    simp only [c_request_arbitration, hl]
    split_ifs <;> rfl

lemma store_c_feedback (s : Store) (env : Env) (info : MessageInfo) (m : FeedbackMsg)
    (id : String) : (c_feedback s env info m id).1 = s := by
  cases hl : load s id with
  | none => simp [c_feedback, hl]
  | some e =>
    simp only [c_feedback, hl]
    split_ifs <;> rfl

lemma store_f_feedback (s : Store) (env : Env) (info : MessageInfo) (m : FeedbackMsg)
    (id : String) : (f_feedback s env info m id).1 = s := by
  cases hl : load s id with
  | none => simp [f_feedback, hl]
  | some e =>
    simp only [f_feedback, hl]
    split_ifs <;> rfl

lemma c_cancel_cases (s : Store) (env : Env) (info : MessageInfo) (id : String) :
    (c_cancel s env info id).1 = s ∨ c_cancel s env info id = (removeKey s id, .ok []) := by
  cases hl : load s id with
  | none => left; simp [c_cancel, hl]
  | some e =>
    simp only [c_cancel, hl]
    split_ifs
    · exact Or.inl rfl
    · exact Or.inl rfl
    · exact Or.inr rfl

lemma c_complete_cases (s : Store) (env : Env) (info : MessageInfo) (id : String) :
    (c_complete s env info id).1 = s ∨
      ∃ e : Escrow, load s id = some e ∧
        c_complete s env info id = (removeKey s id, .ok (send_tokens e.fulfiller e.balance)) := by
  cases hl : load s id with
  | none => left; simp [c_complete, hl]
  | some e =>
    simp only [c_complete, hl]
    split_ifs
    · exact Or.inl rfl
    · exact Or.inl rfl
    · exact Or.inr ⟨e, rfl, rfl⟩

/-- C1: for every stored escrow record whose `is_fulfilled` flag is true and
`is_completed` flag is false, a creator-complete call by the record's creator
succeeds, removes the record from the store (a subsequent load of the id
yields nothing, and a repeated creator-complete fails with the storage
not-found error), and returns fund-transfer instructions addressed to the
record's fulfiller whose per-denomination and per-token totals exactly equal
the record's balance ledger as it was before removal. -/
theorem creator_complete_disburses (s : Store) (env : Env) (info : MessageInfo)
    (id : String) (e : Escrow)
    (hload : load s id = some e)
    (hful : e.is_fulfilled = true)
    (hcomp : e.is_completed = false)
    (hsender : info.sender = e.creator) :
    c_complete s env info id = (removeKey s id, .ok (send_tokens e.fulfiller e.balance)) ∧
    load (removeKey s id) id = none ∧
    c_complete (removeKey s id) env info id = (removeKey s id, .error (.Std .notFound)) ∧
    (∀ d, msgsNativeTotal (send_tokens e.fulfiller e.balance) d = natTotal e.balance.native d) ∧
    (∀ a, msgsCw20Total (send_tokens e.fulfiller e.balance) a = cw20Total e.balance.cw20 a) ∧
    (∀ m ∈ send_tokens e.fulfiller e.balance, msgDest m = e.fulfiller) := by
  have hrm : load (removeKey s id) id = none := by
    rw [load_removeKey]
    simp
  refine ⟨?_, hrm, ?_, ?_, ?_, ?_⟩
  · simp only [c_complete, hload]
    rw [if_neg (by simp [hsender]), if_neg (by simp [hful, hcomp])]
  · simp [c_complete, hrm]
  · intro d
    exact msgsNativeTotal_send_tokens _ _ _
  · intro a
    exact msgsCw20Total_send_tokens _ _ _
  · intro m hm
    exact msgDest_send_tokens _ _ _ hm

/-- C1 witness: the theorem applied to the concrete fulfilled record
`escrowFulfilled` stored under `"job"`, creator `"alice"` calling. -/
theorem creator_complete_disburses_witness :
    c_complete [("job", escrowFulfilled)] env0 { sender := "alice", funds := [] } "job" =
      (removeKey [("job", escrowFulfilled)] "job",
        .ok (send_tokens escrowFulfilled.fulfiller escrowFulfilled.balance)) ∧
    load (removeKey [("job", escrowFulfilled)] "job") "job" = none :=
  have h := creator_complete_disburses [("job", escrowFulfilled)] env0
    { sender := "alice", funds := [] } "job" escrowFulfilled rfl rfl rfl rfl
  ⟨h.1, h.2.1⟩

/-- C6: a creator-complete call by the record's creator fails with `Expired`
whenever the record is not fulfilled, and likewise whenever it is already
completed; the record stays in the store and no instructions are returned. -/
theorem creator_complete_expired_errors (s : Store) (env : Env) (info : MessageInfo)
    (id : String) (e : Escrow)
    (hload : load s id = some e)
    (hsender : info.sender = e.creator)
    (hcase : e.is_fulfilled = false ∨ e.is_completed = true) :
    c_complete s env info id = (s, .error .Expired) ∧
    load ((c_complete s env info id).1) id = some e := by
  have h1 : c_complete s env info id = (s, .error .Expired) := by
    simp only [c_complete, hload]
    rw [if_neg (by simp [hsender]), if_pos hcase]
  refine ⟨h1, ?_⟩
  rw [h1]
  exact hload

/-- C6 witness: the theorem applied to the freshly created record `escrow1`
(not fulfilled) stored under `"foobar"`, creator `"alice"` calling. -/
theorem creator_complete_expired_errors_witness :
    c_complete [("foobar", escrow1)] env0 { sender := "alice", funds := [] } "foobar" =
      ([("foobar", escrow1)], .error .Expired) :=
  (creator_complete_expired_errors [("foobar", escrow1)] env0
    { sender := "alice", funds := [] } "foobar" escrow1 rfl rfl (Or.inl rfl)).1

/-- C9: creating with an id that already has a stored record fails with
`AlreadyInUse` regardless of the request's contents, given a non-empty
attached deposit, and the store (hence the existing record) is unchanged. -/
theorem create_duplicate_id_fails (s : Store) (msg : CreateMsg) (b : Balance)
    (sender : Addr) (e : Escrow)
    (hne : b.is_empty = false)
    (hload : load s msg.id = some e) :
    c_create s msg b sender = (s, .error .AlreadyInUse) ∧
    load ((c_create s msg b sender).1) msg.id = some e := by
  have h1 : c_create s msg b sender = (s, .error .AlreadyInUse) := by
    unfold c_create
    rw [if_neg (by simp [hne])]
    simp only [hload]
  refine ⟨h1, ?_⟩
  rw [h1]
  exact hload

/-- C9 witness: the theorem applied to a second create of `"foobar"` with
completely different contents after `escrow1` is stored there. -/
theorem create_duplicate_id_fails_witness :
    c_create [("foobar", escrow1)]
      { id := "foobar", arbiter := "someone", end_height := none, end_time := none,
        exchange_rate := 99, cw20_whitelist := some ["tok"],
        required_trust_metrics := tmDemanding }
      (.cw20 { address := "tok", amount := 5 }) "carol" =
      ([("foobar", escrow1)], .error .AlreadyInUse) :=
  (create_duplicate_id_fails [("foobar", escrow1)]
    { id := "foobar", arbiter := "someone", end_height := none, end_time := none,
      exchange_rate := 99, cw20_whitelist := some ["tok"],
      required_trust_metrics := tmDemanding }
    (.cw20 { address := "tok", amount := 5 }) "carol" escrow1 rfl rfl).1

/-- C5: whenever an execute call returns an error, the storage after the call
equals the storage before it — no insert, overwrite, or removal happens on any
error path of any operation. -/
theorem execute_error_preserves_store (s : Store) (env : Env) (info : MessageInfo)
    (msg : ExecuteMsg) (err : ContractError)
    (h : (execute s env info msg).2 = .error err) :
    (execute s env info msg).1 = s := by
  cases msg with
  | ElArbitrate id m => rfl
  | CChange m => rfl
  | CCreate m =>
    rcases c_create_cases s m (.native info.funds) info.sender with hh | ⟨e, _, hh⟩
    · exact hh
    · exfalso
      have h2 : (execute s env info (.CCreate m)).2 = .ok [] := by
        show (c_create s m (.native info.funds) info.sender).2 = .ok []
        rw [hh]
      rw [h] at h2
      exact Except.noConfusion h2
  | FAccept id => exact store_f_accept s env info id
  | FUnaccept id => exact store_f_unaccept s env info id
  | FComplete id => exact store_f_complete s env info id
  | CReqArbitration id => exact store_c_request_arbitration s env info id
  | CFeedback id m => exact store_c_feedback s env info m id
  | FFeedback id m => exact store_f_feedback s env info m id
  | CCancel id =>
    rcases c_cancel_cases s env info id with hh | hh
    · exact hh
    · exfalso
      have h2 : (execute s env info (.CCancel id)).2 = .ok [] := by
        show (c_cancel s env info id).2 = .ok []
        rw [hh]
      rw [h] at h2
      exact Except.noConfusion h2
  | CComplete id =>
    rcases c_complete_cases s env info id with hh | ⟨e, _, hh⟩
    · exact hh
    · exfalso
      have h2 : (execute s env info (.CComplete id)).2 =
          .ok (send_tokens e.fulfiller e.balance) := by
        show (c_complete s env info id).2 = _
        rw [hh]
      rw [h] at h2
      exact Except.noConfusion h2

/-- C5 witness: the theorem applied to an accept of an unknown id on the empty
store, which errors with the storage not-found fault and leaves the store
empty. -/
theorem execute_error_preserves_store_witness :
    (execute [] env0 { sender := "bob", funds := [] } (.FAccept "nope")).2 =
      .error (.Std .notFound) ∧
    (execute [] env0 { sender := "bob", funds := [] } (.FAccept "nope")).1 = ([] : Store) :=
  ⟨rfl, execute_error_preserves_store [] env0 { sender := "bob", funds := [] }
    (.FAccept "nope") (.Std .notFound) rfl⟩

/-- C2: in every storage state reachable from the empty store by execute
calls, every stored record is listed and has no other lifecycle flag set: no
operation ever persists a lifecycle-flag change to a record that remains in
the store (the only writes are the create insert and the two removals). -/
theorem reachable_flags_clean (s : Store) (hr : Reachable s) :
    ∀ (id : String) (e : Escrow), load s id = some e → flagsClean e := by
  induction hr with
  | empty =>
    intro id e h
    exact Option.noConfusion h
  | step s env info msg hs ih =>
    intro id e hload
    cases msg with
    | ElArbitrate id0 m => exact ih id e hload
    | CChange m => exact ih id e hload
    | CCreate m =>
      have hload2 : load (c_create s m (.native info.funds) info.sender).1 id = some e := hload
      rcases c_create_cases s m (.native info.funds) info.sender with hh | ⟨e0, hclean, hh⟩
      · rw [hh] at hload2
        exact ih id e hload2
      · have hh1 : (c_create s m (.native info.funds) info.sender).1 = insert s m.id e0 := by
          rw [hh]
        rw [hh1, load_insert] at hload2
        by_cases hid : m.id = id
        · rw [if_pos hid] at hload2
          obtain rfl : e0 = e := Option.some.inj hload2
          exact hclean
        · rw [if_neg hid] at hload2
          exact ih id e hload2
    | FAccept id0 =>
      have hload2 : load (f_accept s env info id0).1 id = some e := hload
      rw [store_f_accept s env info id0] at hload2
      exact ih id e hload2
    | FUnaccept id0 =>
      have hload2 : load (f_unaccept s env info id0).1 id = some e := hload
      rw [store_f_unaccept s env info id0] at hload2
      exact ih id e hload2
    | FComplete id0 =>
      have hload2 : load (f_complete s env info id0).1 id = some e := hload
      rw [store_f_complete s env info id0] at hload2
      exact ih id e hload2
    | CReqArbitration id0 =>
      have hload2 : load (c_request_arbitration s env info id0).1 id = some e := hload
      rw [store_c_request_arbitration s env info id0] at hload2
      exact ih id e hload2
    | CFeedback id0 m =>
      have hload2 : load (c_feedback s env info m id0).1 id = some e := hload
      rw [store_c_feedback s env info m id0] at hload2
      exact ih id e hload2
    | FFeedback id0 m =>
      have hload2 : load (f_feedback s env info m id0).1 id = some e := hload
      rw [store_f_feedback s env info m id0] at hload2
      exact ih id e hload2
    | CCancel id0 =>
      have hload2 : load (c_cancel s env info id0).1 id = some e := hload
      rcases c_cancel_cases s env info id0 with hh | hh
      · rw [hh] at hload2
        exact ih id e hload2
      · have hh1 : (c_cancel s env info id0).1 = removeKey s id0 := by rw [hh]
        rw [hh1, load_removeKey] at hload2
        by_cases hid : id0 = id
        · rw [if_pos hid] at hload2
          exact Option.noConfusion hload2
        · rw [if_neg hid] at hload2
          exact ih id e hload2
    | CComplete id0 =>
      have hload2 : load (c_complete s env info id0).1 id = some e := hload
      rcases c_complete_cases s env info id0 with hh | ⟨e0, _, hh⟩
      · rw [hh] at hload2
        exact ih id e hload2
      · have hh1 : (c_complete s env info id0).1 = removeKey s id0 := by rw [hh]
        rw [hh1, load_removeKey] at hload2
        by_cases hid : id0 = id
        · rw [if_pos hid] at hload2
          exact Option.noConfusion hload2
        · rw [if_neg hid] at hload2
          exact ih id e hload2

/-- C2 witness: the store reached by one concrete create is reachable, holds
`escrow1` under `"foobar"`, and the theorem yields its clean flag profile. -/
theorem reachable_flags_clean_witness :
    Reachable store1 ∧ load store1 "foobar" = some escrow1 ∧ flagsClean escrow1 :=
  ⟨Reachable.step [] env0 infoAlice (.CCreate cmsg0) Reachable.empty, rfl,
    reachable_flags_clean store1
      (Reachable.step [] env0 infoAlice (.CCreate cmsg0) Reachable.empty)
      "foobar" escrow1 rfl⟩

/-- C3 (code evidence): accept by `"bob"` on the freshly created listed record
of `"alice"` returns success, yet the storage after the call is unchanged and
the stored record's fulfiller is still `"alice"` — the mutated copy is never
re-persisted; likewise unaccept by the fulfiller of an accepted record returns
success while the stored record keeps its fulfiller reference untouched. -/
theorem accept_success_leaves_store_unchanged :
    (execute store1 env0 { sender := "bob", funds := [] } (.FAccept "foobar")).2 = .ok [] ∧
    (execute store1 env0 { sender := "bob", funds := [] } (.FAccept "foobar")).1 = store1 ∧
    ((load store1 "foobar").map (fun e => e.fulfiller)) = some "alice" ∧
    (execute [("job2", escrowAccepted)] env0 { sender := "bob", funds := [] }
      (.FUnaccept "job2")).2 = .ok [] ∧
    (execute [("job2", escrowAccepted)] env0 { sender := "bob", funds := [] }
      (.FUnaccept "job2")).1 = [("job2", escrowAccepted)] ∧
    ((load [("job2", escrowAccepted)] "job2").map (fun e => e.fulfiller)) = some "bob" :=
  ⟨rfl, rfl, rfl, rfl, rfl, rfl⟩

/-- C4 (code evidence): the literal body of `TrustMetrics::is_higher` discards
every comparison result and returns unit, so it yields the same
(non-)decision for a candidate profile failing all six written comparisons
against `tmDemanding` as for one passing all six — even though the
comparisons as written do distinguish the two (deny versus admit). -/
theorem is_higher_written_yields_no_decision :
    TrustMetrics.is_higher_as_written tmDemanding tmWorst =
      TrustMetrics.is_higher_as_written tmDemanding tmBest ∧
    TrustMetrics.is_higher tmDemanding tmWorst = true ∧
    TrustMetrics.is_higher tmDemanding tmBest = false :=
  ⟨rfl, by decide, by decide⟩

/-- C10: immediately after a successful create, the stored record's fulfiller
field equals the creator's own address, so the creator passes every
caller-equals-fulfiller check: fulfiller-complete, unaccept, and
fulfiller-feedback invoked by the creator fail on the later state-flag checks
(`CantFulfill`, `CantUnaccept`, `NotComplete`), not with `Unauthorized`. -/
theorem create_sets_fulfiller_to_creator (s : Store) (env : Env) (msg : CreateMsg)
    (b : Balance) (sender : Addr) (fb : FeedbackMsg)
    (hne : b.is_empty = false)
    (hfree : load s msg.id = none) :
    ∃ e : Escrow,
      (c_create s msg b sender).2 = .ok [] ∧
      load ((c_create s msg b sender).1) msg.id = some e ∧
      e.fulfiller = sender ∧ e.creator = sender ∧
      f_complete ((c_create s msg b sender).1) env { sender := sender, funds := [] } msg.id =
        ((c_create s msg b sender).1, .error .CantFulfill) ∧
      f_unaccept ((c_create s msg b sender).1) env { sender := sender, funds := [] } msg.id =
        ((c_create s msg b sender).1, .error .CantUnaccept) ∧
      f_feedback ((c_create s msg b sender).1) env { sender := sender, funds := [] } fb msg.id =
        ((c_create s msg b sender).1, .error .NotComplete) := by
  obtain ⟨e, hclean, hful, hcre, hc⟩ := c_create_success s msg b sender hne hfree
  have hs1 : (c_create s msg b sender).1 = insert s msg.id e := by rw [hc]
  have hl1 : load (insert s msg.id e) msg.id = some e := by
    rw [load_insert, if_pos rfl]
  refine ⟨e, ?_, ?_, hful, hcre, ?_, ?_, ?_⟩
  · rw [hc]
  · rw [hs1]
    exact hl1
  · rw [hs1]
    simp only [f_complete, hl1]
    rw [if_neg (by simp [hful]), if_pos hclean.2.2.1]
  · rw [hs1]
    simp only [f_unaccept, hl1]
    rw [if_neg (by simp [hful]), if_pos hclean.2.2.1]
  · rw [hs1]
    simp only [f_feedback, hl1]
    rw [if_neg (by simp [hful]), if_pos hclean.2.2.2.2.2]

/-- C10 witness: the theorem applied to the concrete create `cmsg0` by
`"alice"` on the empty store. -/
theorem create_sets_fulfiller_to_creator_witness :
    ((load ((c_create [] cmsg0 (.native infoAlice.funds) "alice").1) cmsg0.id).map
      (fun e => e.fulfiller)) = some "alice" ∧
    f_complete ((c_create [] cmsg0 (.native infoAlice.funds) "alice").1) env0
      { sender := "alice", funds := [] } cmsg0.id =
      ((c_create [] cmsg0 (.native infoAlice.funds) "alice").1, .error .CantFulfill) := by
  obtain ⟨e, h1, h2, h3, h4, h5, h6, h7⟩ :=
    create_sets_fulfiller_to_creator [] env0 cmsg0 (.native infoAlice.funds) "alice" fb0
      rfl rfl
  refine ⟨?_, h5⟩
  rw [h2]
  simp [h3]

/-- C7: the ledger merge sums amounts into the first entry with a matching
denomination or token address and appends otherwise: per-key totals add up;
the merge is commutative per key, so depositing (100, x) then (50, x) totals
the same as one (150, x) deposit; entry keys keep first-seen order (existing
entries keep their positions, new keys are appended in order of first
appearance in the deposit); and a ledger side with at most one entry per key
keeps that property. -/
theorem add_tokens_merge_properties :
    (∀ (gb : GenericBalance) (ts : List Coin) (d : String),
      natTotal ((gb.add_tokens (.native ts)).native) d =
        natTotal gb.native d + natTotal ts d) ∧
    (∀ (gb : GenericBalance) (t : Cw20CoinVerified) (a : Addr),
      cw20Total ((gb.add_tokens (.cw20 t)).cw20) a =
        cw20Total gb.cw20 a + (if t.address = a then t.amount else 0)) ∧
    (∀ (gb : GenericBalance) (ts us : List Coin) (d : String),
      natTotal (((gb.add_tokens (.native ts)).add_tokens (.native us)).native) d =
        natTotal (((gb.add_tokens (.native us)).add_tokens (.native ts)).native) d) ∧
    (∀ (gb : GenericBalance) (d : String),
      natTotal (((gb.add_tokens (.native [{ denom := "x", amount := 100 }])).add_tokens
          (.native [{ denom := "x", amount := 50 }])).native) d =
        natTotal ((gb.add_tokens (.native [{ denom := "x", amount := 150 }])).native) d) ∧
    (∀ (gb : GenericBalance) (ts : List Coin),
      natDenoms ((gb.add_tokens (.native ts)).native) =
        natDenoms gb.native ++ newKeys (natDenoms gb.native) ts) ∧
    (∀ (gb : GenericBalance) (ts : List Coin), (natDenoms gb.native).Nodup →
      (natDenoms ((gb.add_tokens (.native ts)).native)).Nodup) ∧
    (∀ (gb : GenericBalance) (t : Cw20CoinVerified), (cw20Addrs gb.cw20).Nodup →
      (cw20Addrs ((gb.add_tokens (.cw20 t)).cw20)).Nodup) := by
  have hnat : ∀ (gb : GenericBalance) (ts : List Coin),
      (gb.add_tokens (.native ts)).native = addNative gb.native ts := fun _ _ => rfl
  have hcw : ∀ (gb : GenericBalance) (t : Cw20CoinVerified),
      (gb.add_tokens (.cw20 t)).cw20 = addCw20One gb.cw20 t := fun _ _ => rfl
  refine ⟨?_, ?_, ?_, ?_, ?_, ?_, ?_⟩
  · intro gb ts d
    rw [hnat, natTotal_addNative]
  · intro gb t a
    rw [hcw, cw20Total_addCw20One]
  · intro gb ts us d
    simp only [hnat, natTotal_addNative]
    omega
  · intro gb d
    simp only [hnat, natTotal_addNative]
    have h1 : natTotal [{ denom := "x", amount := 100 }] d +
        natTotal [{ denom := "x", amount := 50 }] d =
        natTotal [{ denom := "x", amount := 150 }] d := by
      simp only [natTotal_cons, natTotal_nil]
      split_ifs <;> omega
    omega
  · intro gb ts
    rw [hnat]
    exact natDenoms_addNative ts gb.native
  · intro gb ts h
    rw [hnat]
    exact nodup_natDenoms_addNative ts gb.native h
  · intro gb t h
    rw [hcw]
    exact nodup_cw20Addrs_addCw20One gb.cw20 t h

/-- C7 witness: the theorem's per-key total and uniqueness parts applied to a
concrete ledger and deposit. -/
theorem add_tokens_merge_properties_witness :
    natTotal ((GenericBalance.add_tokens
        { native := [{ denom := "x", amount := 1 }], cw20 := [] }
        (.native [{ denom := "y", amount := 2 }, { denom := "x", amount := 3 }])).native) "x" =
      natTotal [{ denom := "x", amount := 1 }] "x" +
        natTotal [{ denom := "y", amount := 2 }, { denom := "x", amount := 3 }] "x" ∧
    (natDenoms ((GenericBalance.add_tokens
        { native := [{ denom := "x", amount := 1 }], cw20 := [] }
        (.native [{ denom := "y", amount := 2 }, { denom := "x", amount := 3 }])).native)).Nodup :=
  ⟨add_tokens_merge_properties.1 _ _ _,
    add_tokens_merge_properties.2.2.2.2.2.1 _ _ (by decide)⟩

/-- C8: rendering a disbursement yields exactly one native instruction
carrying the whole native entry list when that list is non-empty (so every
non-zero native entry is carried) and none when it is empty, followed by one
external-token instruction per cw20 entry in original order, all addressed to
the destination, with per-key totals equal to the ledger's. -/
theorem send_tokens_shape (dest : Addr) (b : GenericBalance) :
    (∀ m ∈ send_tokens dest b, msgDest m = dest) ∧
    (b.native = [] → send_tokens dest b =
      b.cw20.map (fun c => SubMsg.cw20Transfer c.address dest c.amount)) ∧
    (b.native ≠ [] → send_tokens dest b =
      SubMsg.bankSend dest b.native ::
        b.cw20.map (fun c => SubMsg.cw20Transfer c.address dest c.amount)) ∧
    (∀ c ∈ b.native, 0 < c.amount →
      ∃ amt, SubMsg.bankSend dest amt ∈ send_tokens dest b ∧ c ∈ amt) ∧
    (∀ d, msgsNativeTotal (send_tokens dest b) d = natTotal b.native d) ∧
    (∀ a, msgsCw20Total (send_tokens dest b) a = cw20Total b.cw20 a) := by
  refine ⟨fun m hm => msgDest_send_tokens dest b m hm, ?_, ?_, ?_,
    fun d => msgsNativeTotal_send_tokens dest b d,
    fun a => msgsCw20Total_send_tokens dest b a⟩
  · intro h
    simp [send_tokens, h]
  · intro h
    have hne : b.native.isEmpty = false := by
      simpa [List.isEmpty_iff] using h
    simp [send_tokens, hne]
  · intro c hc hpos
    have h : b.native ≠ [] := by
      intro hnil
      rw [hnil] at hc
      exact absurd hc (List.not_mem_nil c)
    have hne : b.native.isEmpty = false := by
      simpa [List.isEmpty_iff] using h
    exact ⟨b.native, by simp [send_tokens, hne], hc⟩

/-- C8 witness: the theorem applied to a concrete ledger with one native and
one cw20 entry. -/
theorem send_tokens_shape_witness :
    send_tokens "bob"
      { native := [{ denom := "x", amount := 3 }],
        cw20 := [{ address := "tok", amount := 9 }] } =
      SubMsg.bankSend "bob" [{ denom := "x", amount := 3 }] ::
        [SubMsg.cw20Transfer "tok" "bob" 9] ∧
    msgsNativeTotal (send_tokens "bob"
      { native := [{ denom := "x", amount := 3 }],
        cw20 := [{ address := "tok", amount := 9 }] }) "x" =
      natTotal [{ denom := "x", amount := 3 }] "x" := by
  have h := send_tokens_shape "bob"
    { native := [{ denom := "x", amount := 3 }], cw20 := [{ address := "tok", amount := 9 }] }
  refine ⟨?_, h.2.2.2.2.1 "x"⟩
  have h3 := h.2.2.1 (by decide)
  simpa using h3
